import Mathlib

/-!
Verification development for the aggregation/synchronization core of
claude-task-monitor (src/index.ts).  The TypeScript source is shallowly
embedded: file-system state, parsed JSON values and the mutable caches are
explicit Lean data, fallible reads become `Option`, and the event handlers
become pure state-transition functions.
-/

/-- Model of a JavaScript value as produced by JSON.parse.  Numbers are
rationals (JSON numbers carry no NaN/Infinity). -/
inductive JsValue where
  | null : JsValue
  | bool : Bool → JsValue
  | num : ℚ → JsValue
  | str : String → JsValue
  | arr : List JsValue → JsValue
  | obj : List (String × JsValue) → JsValue

/-- JavaScript truthiness of a parsed JSON value (NaN cannot arise from
JSON.parse, so a number is truthy iff nonzero). -/
def truthy : JsValue → Bool
  | JsValue.null => false
  | JsValue.bool b => b
  | JsValue.num q => q != 0
  | JsValue.str s => s != ""
  | JsValue.arr _ => true
  | JsValue.obj _ => true

/-- Property lookup `v[key]` on a parsed JSON value; `none` models JavaScript
`undefined`.  JSON.parse keeps the last occurrence of a duplicated key, hence
the lookup over the reversed field list. -/
def jsGetField (v : JsValue) (key : String) : Option JsValue :=
  match v with
  | JsValue.obj fields => (fields.reverse.lookup key)
  | _ => none

/-- Decimal digit value of a character, if any. -/
def digitVal (c : Char) : Option Nat :=
  if '0' ≤ c ∧ c ≤ '9' then some (c.toNat - '0'.toNat) else none

/-- Hexadecimal digit value of a character, if any. -/
def hexVal (c : Char) : Option Nat :=
  if '0' ≤ c ∧ c ≤ '9' then some (c.toNat - '0'.toNat)
  else if 'a' ≤ c ∧ c ≤ 'f' then some (c.toNat - 'a'.toNat + 10)
  else if 'A' ≤ c ∧ c ≤ 'F' then some (c.toNat - 'A'.toNat + 10)
  else none

/-- Whitespace skipped by JavaScript numeric parsing (the common ASCII
subset; exotic Unicode space characters are not modelled). -/
def jsWs (c : Char) : Bool :=
  c = ' ' ∨ c = '\t' ∨ c = '\n' ∨ c = '\r'

/-- Boolean prefix test on character lists. -/
def charsHasPrefix : List Char → List Char → Bool
  | [], _ => true
  | _ :: _, [] => false
  | p :: ps, c :: cs => p == c && charsHasPrefix ps cs

/-- JavaScript `s.endsWith(pat)`, implemented on character lists so that
concrete instances evaluate in the kernel. -/
def jsEndsWith (s pat : String) : Bool :=
  charsHasPrefix pat.toList.reverse s.toList.reverse

/-- JavaScript `s.trim()` (the common ASCII whitespace subset), implemented
on character lists so that concrete instances evaluate in the kernel. -/
def jsTrim (s : String) : String :=
  String.mk (((s.toList.dropWhile jsWs).reverse.dropWhile jsWs).reverse)

example : jsEndsWith "a.json" ".json" = true := by decide
example : jsEndsWith "a.jsonx" ".json" = false := by decide
example : jsTrim "  x y " = "x y" := by decide

/-- Accumulate the longest prefix of digits (in the given base) into a value,
starting from `acc`; stops at the first non-digit. -/
def digitsAcc (base : Nat) (dv : Char → Option Nat) : List Char → Nat → Nat
  | [], acc => acc
  | c :: cs, acc =>
    match dv c with
    | some d => digitsAcc base dv cs (acc * base + d)
    | none => acc

/-- Parse a digit run in the given base: `none` (NaN) when the first
character is not a digit, otherwise the value of the longest digit prefix. -/
def parseDigitRun (base : Nat) (dv : Char → Option Nat) : List Char → Option Nat
  | [] => none
  | c :: cs =>
    match dv c with
    | some _ => some (digitsAcc base dv (c :: cs) 0)
    | none => none

/-- Unsigned part of JavaScript parseInt with no radix argument: a leading
0x/0X selects base 16, otherwise base 10; the longest valid digit prefix is
taken and trailing garbage is ignored. -/
def parseIntUnsigned (cs : List Char) : Option Nat :=
  match cs with
  | '0' :: 'x' :: rest => parseDigitRun 16 hexVal rest
  | '0' :: 'X' :: rest => parseDigitRun 16 hexVal rest
  | _ => parseDigitRun 10 digitVal cs

/-- JavaScript `parseInt(s)` (radix auto-detected): skip leading whitespace,
optional sign, then the longest digit prefix; `none` models NaN. -/
def parseIntJS (s : String) : Option Int :=
  let cs := s.toList.dropWhile jsWs
  match cs with
  | '-' :: rest => (parseIntUnsigned rest).map (fun n => -(n : Int))
  | '+' :: rest => (parseIntUnsigned rest).map (fun n => (n : Int))
  | _ => (parseIntUnsigned cs).map (fun n => (n : Int))

example : parseIntJS "42abc" = some 42 := by rfl
example : parseIntJS "  -17" = some (-17) := by rfl
example : parseIntJS "x7" = none := by rfl
example : parseIntJS "0x10" = some 16 := by rfl
example : parseIntJS "12.9" = some 12 := by rfl

/-- Exponent digits of a JavaScript numeric string: the whole remainder must
be a non-empty digit run. -/
def parseExpDigits (cs : List Char) : Option Nat :=
  if cs ≠ [] ∧ cs.all (fun c => (digitVal c).isSome) then
    some (digitsAcc 10 digitVal cs 0)
  else none

/-- Signed exponent of a JavaScript numeric string, applied to a mantissa
given as a scaled integer `m` over `10 ^ fracLen`.  All arithmetic stays in
ℕ with a single final `mkRat` so that concrete values reduce in the kernel. -/
def parseSignedExp (m fracLen : Nat) (cs : List Char) : Option ℚ :=
  match cs with
  | '-' :: rest => (parseExpDigits rest).map (fun n => mkRat (Int.ofNat m) (10 ^ fracLen * 10 ^ n))
  | '+' :: rest => (parseExpDigits rest).map (fun n => mkRat (Int.ofNat (m * 10 ^ n)) (10 ^ fracLen))
  | _ => (parseExpDigits cs).map (fun n => mkRat (Int.ofNat (m * 10 ^ n)) (10 ^ fracLen))

/-- Optional exponent suffix after a decimal mantissa; any other trailing
character makes the whole string NaN. -/
def parseExpPart (m fracLen : Nat) : List Char → Option ℚ
  | [] => some (mkRat (Int.ofNat m) (10 ^ fracLen))
  | 'e' :: rest => parseSignedExp m fracLen rest
  | 'E' :: rest => parseSignedExp m fracLen rest
  | _ => none

/-- Decimal mantissa `digits[.digits]` of a JavaScript numeric string,
returning the scaled integer value, the number of fraction digits, and the
unconsumed remainder. -/
def parseDecMantissa (cs : List Char) : Option (Nat × Nat × List Char) :=
  let isDig := fun c => (digitVal c).isSome
  let intPart := cs.takeWhile isDig
  let rest1 := cs.dropWhile isDig
  match rest1 with
  | '.' :: rest2 =>
    let fracPart := rest2.takeWhile isDig
    let rest3 := rest2.dropWhile isDig
    if intPart = [] ∧ fracPart = [] then none
    else
      some (digitsAcc 10 digitVal intPart 0 * 10 ^ fracPart.length
        + digitsAcc 10 digitVal fracPart 0, fracPart.length, rest3)
  | _ => if intPart = [] then none else some (digitsAcc 10 digitVal intPart 0, 0, rest1)

/-- Decimal (non-hex) JavaScript numeric string: mantissa plus optional
exponent. -/
def strToNumDec (cs : List Char) : Option ℚ :=
  (parseDecMantissa cs).bind (fun p => parseExpPart p.1 p.2.1 p.2.2)

/-- Unsigned JavaScript numeric string: 0x/0X selects a hex literal (which
must consume the whole string), otherwise a decimal literal. -/
def strToNumUnsigned (cs : List Char) : Option ℚ :=
  match cs with
  | '0' :: 'x' :: rest =>
    if rest ≠ [] ∧ rest.all (fun c => (hexVal c).isSome) then
      some (mkRat (Int.ofNat (digitsAcc 16 hexVal rest 0)) 1)
    else none
  | '0' :: 'X' :: rest =>
    if rest ≠ [] ∧ rest.all (fun c => (hexVal c).isSome) then
      some (mkRat (Int.ofNat (digitsAcc 16 hexVal rest 0)) 1)
    else none
  | _ => strToNumDec cs

/-- JavaScript `Number(s)` for a string: trim, empty means 0, optional sign
(decimal only), hex or decimal literal.  `none` models NaN; the Infinity
literals are also mapped to `none`, which is observationally equivalent here
since every use site rejects both NaN and out-of-range values. -/
def strToNumberJS (s : String) : Option ℚ :=
  let cs := ((s.toList.dropWhile jsWs).reverse.dropWhile jsWs).reverse
  match cs with
  | [] => some 0
  | '-' :: rest => (strToNumDec rest).map (fun q => -q)
  | '+' :: rest => strToNumDec rest
  | _ => strToNumUnsigned cs

/-- JavaScript `Number(v)` coercion of a parsed JSON value.  Array coercion
goes through the comma-joined string: a multi-element array contains a comma
and is NaN; deeply nested or boolean/object single elements are approximated
as NaN. -/
def jsToNumber : JsValue → Option ℚ
  | JsValue.null => some 0
  | JsValue.bool b => some (if b then 1 else 0)
  | JsValue.num q => some q
  | JsValue.str s => strToNumberJS s
  | JsValue.arr [] => some 0
  | JsValue.arr [JsValue.num q] => some q
  | JsValue.arr [JsValue.str s] => strToNumberJS s
  | JsValue.arr [JsValue.null] => some 0
  | JsValue.arr [JsValue.arr []] => some 0
  | JsValue.arr [_] => none
  | JsValue.arr (_ :: _ :: _) => none
  | JsValue.obj _ => none

example : strToNumberJS "" = some 0 := by decide
example : strToNumberJS " 750 " = some 750 := by decide
example : strToNumberJS "5e2" = some 500 := by decide
example : strToNumberJS "550.5" = some (mkRat 1101 2) := by decide
example : strToNumberJS "-12.5" = some (mkRat (-25) 2) := by decide
example : strToNumberJS "5x" = none := by decide
example : jsToNumber (JsValue.num 100) = some 100 := by rfl

/-- Sort key `parseInt(a.id)` used by getTaskLists, on an arbitrary parsed
task value (no schema validation happens upstream).  A missing id is
`undefined`, whose string form parses to NaN; a numeric id goes through its
string form, which for the JSON-represented rationals used here truncates
toward zero (numbers of magnitude at least 1e21 would render in exponential
notation and are not modelled). -/
def taskSortKey (t : JsValue) : Option Int :=
  match jsGetField t "id" with
  | some (JsValue.str s) => parseIntJS s
  | some (JsValue.num q) => some (q.num / (q.den : Int))
  | _ => none

/-- The comparator `(a, b) => parseInt(a.id) - parseInt(b.id)`; `none` models
a NaN comparison result. -/
def taskCmp (a b : JsValue) : Option Int :=
  match taskSortKey a, taskSortKey b with
  | some x, some y => some (x - y)
  | _, _ => none

/-- Boolean ordering derived from the comparator the way a comparison
`c(a,b) > 0` evaluates in the sort: a NaN result is not greater than zero,
so it behaves like a tie. -/
def taskLe (a b : JsValue) : Bool :=
  match taskCmp a b with
  | some d => decide (d ≤ 0)
  | none => true

/-- Stable insertion step of the sort model: `a` goes before the first
element `b` with `le a b`, i.e. before the first element the comparator does
not place strictly below `a`. -/
def jsInsert (le : α → α → Bool) (a : α) : List α → List α
  | [] => [a]
  | b :: l => if le a b then a :: b :: l else b :: jsInsert le a l

/-- Model of `Array.prototype.sort(comparator)`: a stable sort with respect
to the boolean ordering `le a b`, meaning `comparator(a, b) > 0` is false.
ECMAScript (2019 and later) requires sort stability, so for a consistent
comparator this is exactly the observable behavior; for an inconsistent
comparator (for example one returning NaN) the engine order is
implementation-defined and this model fixes one stable choice. -/
def jsSortBy (le : α → α → Bool) : List α → List α
  | [] => []
  | a :: l => jsInsert le a (jsSortBy le l)

theorem jsInsert_perm (le : α → α → Bool) (a : α) (l : List α) :
    (jsInsert le a l).Perm (a :: l) := by
  induction l with
  | nil => exact List.Perm.refl _
  | cons b t ih =>
    simp only [jsInsert]
    by_cases h : le a b
    · simp [h]
    · simp only [if_neg h]
      exact (ih.cons b).trans (List.Perm.swap a b t)

theorem jsSortBy_perm (le : α → α → Bool) (l : List α) :
    (jsSortBy le l).Perm l := by
  induction l with
  | nil => exact List.Perm.refl _
  | cons a t ih => exact (jsInsert_perm le a (jsSortBy le t)).trans (ih.cons a)

theorem jsSortBy_length (le : α → α → Bool) (l : List α) :
    (jsSortBy le l).length = l.length :=
  (jsSortBy_perm le l).length_eq

theorem mem_jsSortBy (le : α → α → Bool) (l : List α) (a : α) :
    a ∈ jsSortBy le l ↔ a ∈ l :=
  (jsSortBy_perm le l).mem_iff

theorem mem_jsInsert (le : α → α → Bool) (a b : α) (l : List α) :
    b ∈ jsInsert le a l ↔ b = a ∨ b ∈ l := by
  rw [(jsInsert_perm le a l).mem_iff, List.mem_cons]

theorem jsInsert_pairwise (le : α → α → Bool)
    (htot : ∀ a b, le a b = true ∨ le b a = true)
    (htrans : ∀ a b c, le a b = true → le b c = true → le a c = true)
    (a : α) (l : List α) (h : l.Pairwise (fun x y => le x y = true)) :
    (jsInsert le a l).Pairwise (fun x y => le x y = true) := by
  induction l with
  | nil => simp [jsInsert]
  | cons b t ih =>
    rw [List.pairwise_cons] at h
    obtain ⟨hb, ht⟩ := h
    simp only [jsInsert]
    by_cases hab : le a b = true
    · rw [if_pos hab, List.pairwise_cons]
      refine ⟨?_, List.pairwise_cons.mpr ⟨hb, ht⟩⟩
      intro x hx
      rcases List.mem_cons.mp hx with rfl | hx
      · exact hab
      · exact htrans a b x hab (hb x hx)
    · rw [if_neg hab, List.pairwise_cons]
      refine ⟨?_, ih ht⟩
      intro x hx
      rcases (mem_jsInsert le a x t).mp hx with rfl | hx
      · rcases htot x b with h | h
        · exact absurd h hab
        · exact h
      · exact hb x hx

theorem jsSortBy_pairwise (le : α → α → Bool)
    (htot : ∀ a b, le a b = true ∨ le b a = true)
    (htrans : ∀ a b c, le a b = true → le b c = true → le a c = true)
    (l : List α) :
    (jsSortBy le l).Pairwise (fun x y => le x y = true) := by
  induction l with
  | nil => simp [jsSortBy]
  | cons a t ih => exact jsInsert_pairwise le htot htrans a (jsSortBy le t) ih

theorem jsInsert_congr (le₁ le₂ : α → α → Bool) (a : α) (l : List α)
    (h : ∀ x ∈ l, le₁ a x = le₂ a x) :
    jsInsert le₁ a l = jsInsert le₂ a l := by
  induction l with
  | nil => rfl
  | cons b t ih =>
    simp only [jsInsert]
    rw [h b (List.mem_cons_self b t)]
    by_cases hab : le₂ a b = true
    · rw [if_pos hab, if_pos hab]
    · rw [if_neg hab, if_neg hab, ih (fun x hx => h x (List.mem_cons_of_mem b hx))]

theorem jsSortBy_congr (le₁ le₂ : α → α → Bool) (l : List α)
    (h : ∀ x ∈ l, ∀ y ∈ l, le₁ x y = le₂ x y) :
    jsSortBy le₁ l = jsSortBy le₂ l := by
  induction l with
  | nil => rfl
  | cons a t ih =>
    simp only [jsSortBy]
    rw [ih (fun x hx y hy =>
      h x (List.mem_cons_of_mem a hx) y (List.mem_cons_of_mem a hy))]
    exact jsInsert_congr le₁ le₂ a (jsSortBy le₂ t) (fun x hx =>
      h a (List.mem_cons_self a t) x
        (List.mem_cons_of_mem a ((mem_jsSortBy le₂ t x).mp hx)))

/-- Key-based boolean ordering used to state stability results. -/
def keyLe (f : α → Int) (a b : α) : Bool :=
  decide (f a ≤ f b)

theorem jsInsert_filter_key (f : α → Int) (k : Int) (a : α) (l : List α) :
    (jsInsert (keyLe f) a l).filter (fun x => decide (f x = k)) =
      if f a = k then a :: l.filter (fun x => decide (f x = k))
      else l.filter (fun x => decide (f x = k)) := by
  induction l with
  | nil =>
    by_cases h : f a = k
    · simp [jsInsert, h]
    · simp [jsInsert, h]
  | cons b t ih =>
    simp only [jsInsert]
    by_cases hab : f a ≤ f b
    · rw [if_pos (by simpa [keyLe] using hab)]
      by_cases h : f a = k
      · simp [List.filter_cons, h]
      · simp [List.filter_cons, h]
    · rw [if_neg (by simpa [keyLe] using hab)]
      by_cases h : f a = k
      · have hbk : ¬ f b = k := by
          intro hb
          exact hab (le_of_eq (h.trans hb.symm))
        simp [List.filter_cons, hbk, h, ih]
      · rw [if_neg h, List.filter_cons, List.filter_cons]
        rw [ih, if_neg h]

theorem jsSortBy_filter_key (f : α → Int) (k : Int) (l : List α) :
    (jsSortBy (keyLe f) l).filter (fun x => decide (f x = k)) =
      l.filter (fun x => decide (f x = k)) := by
  induction l with
  | nil => rfl
  | cons a t ih =>
    simp only [jsSortBy]
    rw [jsInsert_filter_key, List.filter_cons]
    by_cases h : f a = k
    · rw [if_pos h, ih]
      simp [h]
    · rw [if_neg h, ih]
      simp [h]

theorem jsInsert_forall₂ {R : α → β → Prop} (le₁ : α → α → Bool) (le₂ : β → β → Bool)
    (hle : ∀ a b a' b', R a a' → R b b' → le₁ a b = le₂ a' b')
    {a : α} {a' : β} (ha : R a a') :
    ∀ {l₁ : List α} {l₂ : List β}, List.Forall₂ R l₁ l₂ →
      List.Forall₂ R (jsInsert le₁ a l₁) (jsInsert le₂ a' l₂) := by
  intro l₁ l₂ h
  induction h with
  | nil => exact List.Forall₂.cons ha List.Forall₂.nil
  | cons hb ht ih =>
    rename_i b b' t t'
    simp only [jsInsert]
    rw [hle _ _ _ _ ha hb]
    by_cases hx : le₂ a' b' = true
    · rw [if_pos hx, if_pos hx]
      exact List.Forall₂.cons ha (List.Forall₂.cons hb ht)
    · rw [if_neg hx, if_neg hx]
      exact List.Forall₂.cons hb ih

theorem jsSortBy_forall₂ {R : α → β → Prop} (le₁ : α → α → Bool) (le₂ : β → β → Bool)
    (hle : ∀ a b a' b', R a a' → R b b' → le₁ a b = le₂ a' b') :
    ∀ {l₁ : List α} {l₂ : List β}, List.Forall₂ R l₁ l₂ →
      List.Forall₂ R (jsSortBy le₁ l₁) (jsSortBy le₂ l₂) := by
  intro l₁ l₂ h
  induction h with
  | nil => exact List.Forall₂.nil
  | cons ha ht ih => exact jsInsert_forall₂ le₁ le₂ hle ha ih

/-- One file inside a task-list directory.  `parsed` is the result of
`fs.readFileSync` followed by `JSON.parse`: `none` when the read throws or
the content is not valid JSON, otherwise the parsed value (which may itself
be the JSON literal `null`, `0`, `false` or `""`).  `mtime` is the stat
modification time in milliseconds. -/
structure TaskFile where
  name : String
  parsed : Option JsValue
  mtime : Nat

/-- One immediate child of the watched tasks root, as reported by
`readdirSync(TASKS_DIR, { withFileTypes: true })`.  `readable` is false when
`readdirSync` on the subdirectory itself throws (permissions, deletion
race), which the source skips with `continue`. -/
structure DirEnt where
  name : String
  isDirectory : Bool
  readable : Bool
  files : List TaskFile

/-- The watched tasks root: whether `TASKS_DIR` exists and its entries. -/
structure FS where
  tasksDirExists : Bool
  entries : List DirEnt

/-- Source `readTaskFile`: returns the JSON.parse result of the file, or
null (here `none`) when reading or parsing throws. -/
def readTaskFile (f : TaskFile) : Option JsValue :=
  f.parsed

/-- The per-file loop body of getTaskLists (and, identically, of
getAllTaskListSummaries): a file contributes a task exactly when its name
ends in .json, readTaskFile returns a value, and that value is truthy. -/
def keepsTask (f : TaskFile) : Option JsValue :=
  if jsEndsWith f.name ".json" then
    match readTaskFile f with
    | some v => if truthy v then some v else none
    | none => none
  else none

/-- One iteration of the per-directory file loop: a kept task is prepended
(scan order) and the running maximum mtime updated (`statSync` only runs for
kept files). -/
def scanStep (f : TaskFile) (rest : List JsValue × Nat) : List JsValue × Nat :=
  match keepsTask f with
  | some v => (v :: rest.1, max f.mtime rest.2)
  | none => rest

/-- The per-directory file loop shared verbatim by getTaskLists and
getAllTaskListSummaries: collect the kept tasks in scan order and the
maximum mtime over the kept files (lastModified starts at `new Date(0)`,
i.e. 0). -/
def scanTasks : List TaskFile → List JsValue × Nat
  | [] => ([], 0)
  | f :: fs => scanStep f (scanTasks fs)

/-- Source `ClaudeTaskList` (tasks stay raw JSON values: no schema
validation happens anywhere). -/
structure ClaudeTaskList where
  id : String
  tasks : List JsValue
  lastModified : Nat

/-- Boolean ordering of the list-level comparator
`(a, b) => b.lastModified.getTime() - a.lastModified.getTime()`:
`le a b` iff the comparator result is not positive. -/
def listLe (a b : ClaudeTaskList) : Bool :=
  decide (b.lastModified ≤ a.lastModified)

/-- A Reconciliation Cache entry: the last tasks and lastModified seen for a
list id (`taskDataCache` in the source). -/
structure CacheEntry where
  tasks : List JsValue
  lastModified : Nat

/-- The Reconciliation Cache, a JavaScript Map keyed by list id. -/
abbrev Cache := List (String × CacheEntry)

/-- `Map.get`. -/
def mapGet (c : Cache) (k : String) : Option CacheEntry :=
  match c with
  | [] => none
  | (k', v) :: rest => if k' = k then some v else mapGet rest k

/-- `Map.set`: replaces the value in place for an existing key, appends a
new key. -/
def mapSet (c : Cache) (k : String) (v : CacheEntry) : Cache :=
  match c with
  | [] => [(k, v)]
  | (k', v') :: rest => if k' = k then (k, v) :: rest else (k', v') :: mapSet rest k v

/-- `Map.delete`. -/
def mapDelete (c : Cache) (k : String) : Cache :=
  match c with
  | [] => []
  | (k', v') :: rest => if k' = k then rest else (k', v') :: mapDelete rest k

/-- The per-directory body of getTaskLists: skip non-directories, the
reserved .archive subdirectory, and unreadable directories; drop a list with
no readable tasks; otherwise sort the kept tasks by
`parseInt(a.id) - parseInt(b.id)` and build the list record. -/
def processDir (d : DirEnt) : Option ClaudeTaskList :=
  if d.isDirectory ∧ d.name ≠ ".archive" ∧ d.readable then
    if 0 < (scanTasks d.files).1.length then
      some { id := d.name, tasks := jsSortBy taskLe (scanTasks d.files).1,
             lastModified := (scanTasks d.files).2 }
    else none
  else none

/-- Source `getTaskLists`: one pass over the root's entries producing the
published lists (sorted by lastModified descending) and, as a side effect in
the source, the Reconciliation Cache updated with every non-empty list's
sorted tasks and lastModified. -/
def getTaskLists (fs : FS) (cache : Cache) : List ClaudeTaskList × Cache :=
  if fs.tasksDirExists then
    (jsSortBy listLe (fs.entries.filterMap processDir),
     fs.entries.foldl (fun c d =>
       match processDir d with
       | some l => mapSet c l.id { tasks := l.tasks, lastModified := l.lastModified }
       | none => c) cache)
  else ([], cache)

/-- Source `TaskListSummary`. -/
structure TaskListSummary where
  id : String
  path : String
  taskCount : Nat
  pendingCount : Nat
  inProgressCount : Nat
  completedCount : Nat
  lastModified : Nat
  hasPrompt : Bool

/-- Strict equality `t.status === s` on a raw task value. -/
def statusIs (t : JsValue) (s : String) : Bool :=
  match jsGetField t "status" with
  | some (JsValue.str x) => x = s
  | _ => false

/-- The model's stand-in for `path.join(TASKS_DIR, name)`. -/
def TASKS_DIR : String := "~/.claude/tasks"

/-- The per-directory body of getAllTaskListSummaries: the same scan as
processDir (the loop is duplicated verbatim in the source) plus the
prompt-file existence check and the status counts. -/
def summarizeDir (d : DirEnt) : Option TaskListSummary :=
  if d.isDirectory ∧ d.name ≠ ".archive" ∧ d.readable then
    if 0 < (scanTasks d.files).1.length then
      some { id := d.name,
             path := TASKS_DIR ++ "/" ++ d.name,
             taskCount := (scanTasks d.files).1.length,
             pendingCount := ((scanTasks d.files).1.filter (fun t => statusIs t "pending")).length,
             inProgressCount := ((scanTasks d.files).1.filter (fun t => statusIs t "in_progress")).length,
             completedCount := ((scanTasks d.files).1.filter (fun t => statusIs t "completed")).length,
             lastModified := (scanTasks d.files).2,
             hasPrompt := d.files.any (fun f => f.name = "prompt.md") }
    else none
  else none

/-- Boolean ordering of the summary-level comparator (same comparator as
listLe, over summaries). -/
def summLe (a b : TaskListSummary) : Bool :=
  decide (b.lastModified ≤ a.lastModified)

/-- Source `getAllTaskListSummaries`. -/
def getAllTaskListSummaries (fs : FS) : List TaskListSummary :=
  if fs.tasksDirExists then
    jsSortBy summLe (fs.entries.filterMap summarizeDir)
  else []

/-- Source `MonitorConfig`.  `pollInterval` is a JavaScript number, hence a
rational here. -/
structure MonitorConfig where
  projectDir : String
  pollInterval : ℚ
  agentNames : List String
  deriving DecidableEq

/-- Source `TaskMonitorData`, the published snapshot. -/
structure TaskMonitorData where
  taskLists : List ClaudeTaskList
  availableLists : List TaskListSummary
  selectedListId : String
  templates : List String
  projectDir : String

/-- Source `writeFiles` (the aggregation+publish pass): builds the snapshot
from one scan; `selectedListId` is the first list's id, or the empty string
when there are no lists.  Returns the snapshot together with the updated
Reconciliation Cache. -/
def writeFiles (fs : FS) (cache : Cache) (config : MonitorConfig) :
    TaskMonitorData × Cache :=
  let scanned := getTaskLists fs cache
  let taskLists := scanned.1
  let availableLists := getAllTaskListSummaries fs
  let selectedListId :=
    match taskLists with
    | [] => ""
    | l :: _ => l.id
  ({ taskLists := taskLists,
     availableLists := availableLists,
     selectedListId := selectedListId,
     templates := [],
     projectDir := config.projectDir }, scanned.2)

/-- Boolean substring test on character lists. -/
def charsContains (pat : List Char) : List Char → Bool
  | [] => charsHasPrefix pat []
  | c :: cs => charsHasPrefix pat (c :: cs) || charsContains pat cs

/-- JavaScript `s.includes(pat)`. -/
def strContains (s pat : String) : Bool :=
  charsContains pat.toList s.toList

/-- A watcher file path, as its slash-separated segments.  Since the pattern
`.archive` contains no separator, `filePath.includes(".archive")` holds
exactly when some segment contains it. -/
def pathIncludesArchive (segs : List String) : Bool :=
  segs.any (fun s => strContains s ".archive")

/-- `path.basename(path.dirname(filePath))`: the name of the directory
containing the file, i.e. the task-list id. -/
def unlinkListId (segs : List String) : String :=
  segs.dropLast.getLastD ""

/-- One durable archive artifact: `{id, archivedAt, tasks}` as written by
archiveTaskList. -/
structure ArchiveRecord where
  id : String
  archivedAt : Nat
  tasks : List JsValue

/-- The watcher-side mutable state: the Reconciliation Cache and the archive
directory contents (as the sequence of records written so far). -/
structure MonState where
  cache : Cache
  archives : List ArchiveRecord

/-- Source `archiveTaskList` (success path): writes one new uniquely-named
record containing the list id, the archive timestamp and the full task
sequence.  A write failure is logged and leaves the archives unchanged; the
claims below concern the success path. -/
def archiveTaskList (s : MonState) (taskListId : String) (tasks : List JsValue)
    (now : Nat) : MonState :=
  { s with archives := s.archives ++ [{ id := taskListId, archivedAt := now, tasks := tasks }] }

/-- The `taskWatcher.on("unlink")` handler: ignore non-json and archive
paths; when the cache holds a non-empty entry for the file's list, archive
it and delete the cache entry.  (The handler also calls scheduleWriteFiles,
modelled separately below.) -/
def onUnlink (s : MonState) (segs : List String) (now : Nat) : MonState :=
  if ¬ jsEndsWith (segs.getLastD "") ".json" ∨ pathIncludesArchive segs then s
  else
    match mapGet s.cache (unlinkListId segs) with
    | some cached =>
      if cached.tasks.length > 0 then
        { cache := mapDelete s.cache (unlinkListId segs),
          archives := (archiveTaskList s (unlinkListId segs) cached.tasks now).archives }
      else s
    | none => s

/-- The debounce scheduler's state: the absolute time at which the pending
`setTimeout` (if any) will fire, and the number of writeFiles passes that
have executed. -/
structure SchedState where
  deadline : Option Nat
  passes : Nat
  deriving DecidableEq

/-- Let the single-threaded event loop run up to time `t`: a pending timer
whose deadline has been reached fires writeFiles and clears itself.  Timers
run before an event callback arriving at the same instant. -/
def advanceTo (s : SchedState) (t : Nat) : SchedState :=
  match s.deadline with
  | some d => if d ≤ t then { deadline := none, passes := s.passes + 1 } else s
  | none => s

/-- Source `scheduleWriteFiles`, invoked at time `t`: `clearTimeout` on any
pending timer (one whose deadline has passed already fired and is gone) and
start a fresh 300 ms timer. -/
def scheduleWriteFiles (s : SchedState) (t : Nat) : SchedState :=
  let s' := advanceTo s t
  { deadline := some (t + 300), passes := s'.passes }

/-- Run a sequence of regeneration requests (file events, config reload,
config API writes) at the given times, starting from the idle scheduler. -/
def runRequests (ts : List Nat) : SchedState :=
  ts.foldl scheduleWriteFiles { deadline := none, passes := 0 }

/-- Let the last pending window (if any) elapse with no further request. -/
def flushSched (s : SchedState) : Nat :=
  match s.deadline with
  | some _ => s.passes + 1
  | none => s.passes

/-- Total number of aggregation+publish passes for a request timeline, once
quiescent. -/
def totalPasses (ts : List Nat) : Nat :=
  flushSched (runRequests ts)

/-- Source `DEFAULT_CONFIG`; `projectDir` defaults to `process.cwd()`,
passed in as `cwd`. -/
def DEFAULT_CONFIG (cwd : String) : MonitorConfig :=
  { projectDir := cwd,
    pollInterval := 2000,
    agentNames := ["alpha", "beta", "gamma", "delta", "epsilon", "zeta", "eta",
      "theta", "iota", "kappa", "lambda", "mu", "nu", "xi", "omicron", "pi",
      "rho", "sigma", "tau", "upsilon", "phi", "chi", "psi", "omega"] }

/-- Source `loadConfig`: `none` covers a missing config file and an
unreadable or unparsable one (the catch also covers a parsed null/primitive,
whose property access throws; field-wise that yields the same all-default
record).  Each field falls back to the default independently. -/
def loadConfig (cwd : String) (file : Option JsValue) : MonitorConfig :=
  match file with
  | none => DEFAULT_CONFIG cwd
  | some parsed =>
    { projectDir :=
        match jsGetField parsed "projectDir" with
        | some (JsValue.str s) => if s.length > 0 then s else (DEFAULT_CONFIG cwd).projectDir
        | _ => (DEFAULT_CONFIG cwd).projectDir,
      pollInterval :=
        match jsGetField parsed "pollInterval" with
        | some (JsValue.num q) => if 500 ≤ q ∧ q ≤ 60000 then q else (DEFAULT_CONFIG cwd).pollInterval
        | _ => (DEFAULT_CONFIG cwd).pollInterval,
      agentNames :=
        match jsGetField parsed "agentNames" with
        | some (JsValue.arr xs) =>
          if xs.length > 0 ∧ xs.all (fun x =>
              match x with
              | JsValue.str s => s.length > 0
              | _ => false) then
            xs.map (fun x =>
              match x with
              | JsValue.str s => s
              | _ => "")
          else (DEFAULT_CONFIG cwd).agentNames
        | _ => (DEFAULT_CONFIG cwd).agentNames }

/-- Source `saveConfig`: the persisted file is the JSON serialization of the
record (JSON.stringify is deterministic, so file content equality is record
equality). -/
def saveConfig (c : MonitorConfig) : JsValue :=
  JsValue.obj [("projectDir", JsValue.str c.projectDir),
               ("pollInterval", JsValue.num c.pollInterval),
               ("agentNames", JsValue.arr (c.agentNames.map JsValue.str))]

/-- Last-occurrence field lookup on a parsed JSON object's field list, the
`'key' in input` / `input.key` semantics after JSON.parse. -/
def objGet (fields : List (String × JsValue)) (key : String) : Option JsValue :=
  fields.reverse.lookup key

/-- The `'projectDir' in input` block of validateConfig. -/
def validateProjectDir (input : List (String × JsValue)) (c : MonitorConfig) :
    Except String MonitorConfig :=
  match objGet input "projectDir" with
  | none => Except.ok c
  | some v =>
    match v with
    | JsValue.str s =>
      if (jsTrim s).length = 0 then Except.error "projectDir must be a non-empty string"
      else Except.ok { c with projectDir := jsTrim s }
    | _ => Except.error "projectDir must be a non-empty string"

/-- The `'pollInterval' in input` block of validateConfig
(`val = Number(input.pollInterval)`, rejected when NaN or out of range). -/
def validatePollInterval (input : List (String × JsValue)) (c : MonitorConfig) :
    Except String MonitorConfig :=
  match objGet input "pollInterval" with
  | none => Except.ok c
  | some v =>
    match jsToNumber v with
    | none => Except.error "pollInterval must be a number between 500 and 60000"
    | some q =>
      if q < 500 ∨ 60000 < q then
        Except.error "pollInterval must be a number between 500 and 60000"
      else Except.ok { c with pollInterval := q }

/-- The `'agentNames' in input` block of validateConfig. -/
def validateAgentNames (input : List (String × JsValue)) (c : MonitorConfig) :
    Except String MonitorConfig :=
  match objGet input "agentNames" with
  | none => Except.ok c
  | some (JsValue.arr xs) =>
    if xs.length = 0 then Except.error "agentNames must be a non-empty array of strings"
    else if xs.any (fun x =>
        match x with
        | JsValue.str s => (jsTrim s).length = 0
        | _ => true) then
      Except.error "Each agent name must be a non-empty string"
    else
      Except.ok { c with agentNames := xs.map (fun x =>
        match x with
        | JsValue.str s => jsTrim s
        | _ => "") }
  | some _ => Except.error "agentNames must be a non-empty array of strings"

/-- Source `validateConfig`: starts from a copy of the current config,
validates and applies only the present fields in source order, and returns
the first field error (`Except.error`, the source's `{valid: false, error}`)
or the fully updated record (`Except.ok`, the source's
`{valid: true, config}`). -/
def validateConfig (current : MonitorConfig) (input : List (String × JsValue)) :
    Except String MonitorConfig :=
  (validateProjectDir input current).bind (fun c1 =>
    (validatePollInterval input c1).bind (fun c2 =>
      validateAgentNames input c2))

/-- The config API's server-side state: the live record, the persisted file
content, and how many regeneration requests have been issued. -/
structure ServerState where
  currentConfig : MonitorConfig
  configFile : Option JsValue
  regenRequests : Nat

/-- Response of the POST /api/config handler. -/
structure HttpResponse where
  status : Nat
  result : Except String MonitorConfig

/-- The validated part of the POST /api/config handler: reject leaves every
piece of state untouched; accept installs the new record, persists it
synchronously and requests one regeneration. -/
def applyConfigUpdate (st : ServerState) (fields : List (String × JsValue)) :
    ServerState × HttpResponse :=
  match validateConfig st.currentConfig fields with
  | Except.error e => (st, { status := 400, result := Except.error e })
  | Except.ok c =>
    ({ currentConfig := c,
       configFile := some (saveConfig c),
       regenRequests := st.regenRequests + 1 },
     { status := 200, result := Except.ok c })

/-- The POST /api/config handler: `none` means JSON.parse threw.  A parsed
primitive or null makes the `'field' in input` test throw a TypeError that
the same catch turns into the Invalid JSON response; a parsed array is an
object with none of the three config properties. -/
def handleConfigPost (st : ServerState) (body : Option JsValue) :
    ServerState × HttpResponse :=
  match body with
  | some (JsValue.obj fields) => applyConfigUpdate st fields
  | some (JsValue.arr _) => applyConfigUpdate st []
  | _ => (st, { status := 400, result := Except.error "Invalid JSON" })

theorem scanTasks_cons_none {f : TaskFile} (fs : List TaskFile)
    (h : keepsTask f = none) : scanTasks (f :: fs) = scanTasks fs := by
  rw [scanTasks]
  unfold scanStep
  rw [h]

theorem scanTasks_cons_some {f : TaskFile} (fs : List TaskFile) {v : JsValue}
    (h : keepsTask f = some v) :
    scanTasks (f :: fs) = (v :: (scanTasks fs).1, max f.mtime (scanTasks fs).2) := by
  rw [scanTasks]
  unfold scanStep
  rw [h]

theorem scanTasks_fst (files : List TaskFile) :
    (scanTasks files).1 = files.filterMap keepsTask := by
  induction files with
  | nil => rfl
  | cons f fs ih =>
    cases h : keepsTask f with
    | none => rw [scanTasks_cons_none fs h, List.filterMap_cons, h, ih]
    | some v => rw [scanTasks_cons_some fs h, List.filterMap_cons, h]; simpa using ih

theorem keepsTask_eq_none_of_not_json {f : TaskFile}
    (h : jsEndsWith f.name ".json" = false) : keepsTask f = none := by
  simp [keepsTask, h]

theorem filterMap_keepsTask_length (files : List TaskFile) :
    (files.filterMap keepsTask).length
      + ((files.filter (fun f => jsEndsWith f.name ".json")).filter
          (fun f => (keepsTask f).isNone)).length
      = (files.filter (fun f => jsEndsWith f.name ".json")).length := by
  induction files with
  | nil => rfl
  | cons f fs ih =>
    by_cases hj : jsEndsWith f.name ".json"
    · cases h : keepsTask f with
      | none =>
        simp only [List.filterMap_cons, List.filter_cons, hj, h, if_true,
          Option.isNone_none, List.length_cons]
        omega
      | some v =>
        simp only [List.filterMap_cons, List.filter_cons, hj, h, if_true,
          Option.isNone_some, Bool.false_eq_true, if_false, List.length_cons]
        omega
    · have h0 := keepsTask_eq_none_of_not_json (f := f) (by simpa using hj)
      have hj' : (jsEndsWith f.name ".json") = false := by simpa using hj
      simp only [List.filterMap_cons, List.filter_cons, hj', h0,
        Bool.false_eq_true, if_false]
      exact ih

theorem processDir_some_iff {d : DirEnt} {l : ClaudeTaskList} :
    processDir d = some l ↔
      (d.isDirectory = true ∧ d.name ≠ ".archive" ∧ d.readable = true) ∧
      0 < (scanTasks d.files).1.length ∧
      l = { id := d.name, tasks := jsSortBy taskLe (scanTasks d.files).1,
            lastModified := (scanTasks d.files).2 } := by
  unfold processDir
  by_cases hcond : d.isDirectory = true ∧ d.name ≠ ".archive" ∧ d.readable = true
  · rw [if_pos hcond]
    by_cases hlen : 0 < (scanTasks d.files).1.length
    · rw [if_pos hlen]
      constructor
      · intro h
        exact ⟨hcond, hlen, (Option.some.inj h).symm⟩
      · rintro ⟨-, -, rfl⟩
        rfl
    · rw [if_neg hlen]
      constructor
      · intro h
        exact absurd h (by simp)
      · rintro ⟨-, hl, -⟩
        exact absurd hl hlen
  · rw [if_neg hcond]
    constructor
    · intro h
      exact absurd h (by simp)
    · rintro ⟨hc, -, -⟩
      exact absurd hc hcond

theorem mem_getTaskLists_iff (fs : FS) (c : Cache) (l : ClaudeTaskList) :
    l ∈ (getTaskLists fs c).1 ↔
      fs.tasksDirExists = true ∧ ∃ d, d ∈ fs.entries ∧ processDir d = some l := by
  unfold getTaskLists
  by_cases h : fs.tasksDirExists = true
  · simp [h, mem_jsSortBy, List.mem_filterMap]
  · simp [h]

theorem processDir_id {d : DirEnt} {l : ClaudeTaskList}
    (h : processDir d = some l) : l.id = d.name := by
  obtain ⟨-, -, rfl⟩ := processDir_some_iff.mp h
  rfl

/-- C1: for every watched list directory containing N task files of which K
fail to parse, the published Task List contains exactly the N−K well-formed
tasks and the list is not dropped; a list directory with zero readable tasks
is excluded entirely from the snapshot, never published as an empty list. -/
theorem C1_wellformed_tasks_published (fs : FS) (c : Cache) (d : DirEnt)
    (hfs : fs.tasksDirExists = true)
    (hmem : d ∈ fs.entries)
    (hdir : d.isDirectory = true)
    (hname : d.name ≠ ".archive")
    (hread : d.readable = true)
    (hnodup : (fs.entries.map DirEnt.name).Nodup) :
    (0 < (d.files.filter (fun f => jsEndsWith f.name ".json")).length -
        ((d.files.filter (fun f => jsEndsWith f.name ".json")).filter
          (fun f => (keepsTask f).isNone)).length →
      ∃ l, l ∈ (getTaskLists fs c).1 ∧ l.id = d.name ∧
        l.tasks.length =
          (d.files.filter (fun f => jsEndsWith f.name ".json")).length -
          ((d.files.filter (fun f => jsEndsWith f.name ".json")).filter
            (fun f => (keepsTask f).isNone)).length ∧
        l.tasks.Perm (d.files.filterMap keepsTask))
    ∧ ((d.files.filter (fun f => jsEndsWith f.name ".json")).length -
        ((d.files.filter (fun f => jsEndsWith f.name ".json")).filter
          (fun f => (keepsTask f).isNone)).length = 0 →
      ∀ l ∈ (getTaskLists fs c).1, l.id ≠ d.name) := by
  have hN := filterMap_keepsTask_length d.files
  constructor
  · intro hpos
    have hlen : 0 < (scanTasks d.files).1.length := by
      rw [scanTasks_fst]
      omega
    refine ⟨{ id := d.name, tasks := jsSortBy taskLe (scanTasks d.files).1,
              lastModified := (scanTasks d.files).2 }, ?_, rfl, ?_, ?_⟩
    · rw [mem_getTaskLists_iff]
      exact ⟨hfs, d, hmem, processDir_some_iff.mpr ⟨⟨hdir, hname, hread⟩, hlen, rfl⟩⟩
    · show (jsSortBy taskLe (scanTasks d.files).1).length = _
      rw [jsSortBy_length, scanTasks_fst]
      omega
    · show (jsSortBy taskLe (scanTasks d.files).1).Perm _
      rw [scanTasks_fst]
      exact jsSortBy_perm taskLe _
  · intro hzero l hl hid
    rw [mem_getTaskLists_iff] at hl
    obtain ⟨-, d', hd'mem, hd'⟩ := hl
    have hdd : d' = d :=
      List.inj_on_of_nodup_map hnodup hd'mem hmem ((processDir_id hd') ▸ hid)
    obtain ⟨-, hlen, -⟩ := processDir_some_iff.mp hd'
    rw [hdd, scanTasks_fst] at hlen
    omega

/-- Concrete directory for the C1 witness: three .json task files, one of
which fails to parse. -/
def dirProj1 : DirEnt :=
  { name := "proj1", isDirectory := true, readable := true,
    files :=
      [ { name := "1.json",
          parsed := some (JsValue.obj [("id", JsValue.str "1"),
            ("subject", JsValue.str "a"), ("status", JsValue.str "pending")]),
          mtime := 10 },
        { name := "2.json",
          parsed := some (JsValue.obj [("id", JsValue.str "2"),
            ("subject", JsValue.str "b"), ("status", JsValue.str "completed")]),
          mtime := 20 },
        { name := "3.json", parsed := none, mtime := 30 } ] }

/-- Concrete directory for the C1 witness: a list whose only task file is
malformed, hence zero readable tasks. -/
def dirEmpty1 : DirEnt :=
  { name := "empty1", isDirectory := true, readable := true,
    files := [ { name := "x.json", parsed := none, mtime := 5 } ] }

/-- Concrete root for the C1 witness. -/
def fsC1 : FS :=
  { tasksDirExists := true, entries := [dirProj1, dirEmpty1] }

/-- C1 witness: on `fsC1`, the list with 3 task files and 1 malformed one
publishes exactly 2 tasks, and the list with zero readable tasks is absent
from the snapshot. -/
theorem C1_witness :
    (∃ l, l ∈ (getTaskLists fsC1 []).1 ∧ l.id = "proj1" ∧ l.tasks.length = 2 ∧
        l.tasks.Perm (dirProj1.files.filterMap keepsTask)) ∧
    (∀ l ∈ (getTaskLists fsC1 []).1, l.id ≠ "empty1") := by
  have h1 := C1_wellformed_tasks_published fsC1 [] dirProj1 rfl
    (List.mem_cons_self _ _) rfl (by decide) rfl (by decide)
  have h2 := C1_wellformed_tasks_published fsC1 [] dirEmpty1 rfl
    (by simp [fsC1]) rfl (by decide) rfl (by decide)
  exact ⟨h1.1 (by decide), h2.2 (by decide)⟩

theorem keepsTask_eq_bind (f : TaskFile) :
    keepsTask f =
      (if jsEndsWith f.name ".json" then
        (readTaskFile f).bind (fun v => if truthy v then some v else none)
      else none) := by
  unfold keepsTask
  cases readTaskFile f with
  | none => rfl
  | some v => rfl

/-- C9: during aggregation, a task file is treated as malformed exactly when
reading it fails, its content is not valid JSON, or the parsed JSON value is
falsy (null, false, 0 or the empty string); no schema validation is
performed, so any file parsing to a truthy JSON value — including a bare
string or an object with none of the Task fields — is published verbatim as
a task. -/
theorem C9_malformed_exactly_parse_or_falsy (fs : FS) (c : Cache) (d : DirEnt)
    (hfs : fs.tasksDirExists = true)
    (hmem : d ∈ fs.entries)
    (hdir : d.isDirectory = true)
    (hname : d.name ≠ ".archive")
    (hread : d.readable = true)
    (hne : d.files.filterMap keepsTask ≠ []) :
    (∀ f ∈ d.files, jsEndsWith f.name ".json" = true →
      ((keepsTask f).isSome = true ↔
        ∃ v, readTaskFile f = some v ∧ truthy v = true))
    ∧ ∃ l, l ∈ (getTaskLists fs c).1 ∧ l.id = d.name ∧
        l.tasks.Perm (d.files.filterMap (fun f =>
          if jsEndsWith f.name ".json" then
            (readTaskFile f).bind (fun v => if truthy v then some v else none)
          else none)) := by
  constructor
  · intro f _ hjson
    unfold keepsTask
    rw [hjson]
    cases h : readTaskFile f with
    | none => simp [h]
    | some v =>
      by_cases ht : truthy v = true
      · simp [h, ht]
      · simp [h, ht]
  · have hfuneq : (fun f => if jsEndsWith f.name ".json" then
        (readTaskFile f).bind (fun v => if truthy v then some v else none)
      else none) = keepsTask := by
      funext f
      exact (keepsTask_eq_bind f).symm
    rw [hfuneq]
    have hlen : 0 < (scanTasks d.files).1.length := by
      rw [scanTasks_fst]
      exact List.length_pos.mpr hne
    refine ⟨{ id := d.name, tasks := jsSortBy taskLe (scanTasks d.files).1,
              lastModified := (scanTasks d.files).2 }, ?_, rfl, ?_⟩
    · rw [mem_getTaskLists_iff]
      exact ⟨hfs, d, hmem, processDir_some_iff.mpr ⟨⟨hdir, hname, hread⟩, hlen, rfl⟩⟩
    · show (jsSortBy taskLe (scanTasks d.files).1).Perm _
      rw [scanTasks_fst]
      exact jsSortBy_perm taskLe _

/-- Concrete directory for the C9 witness: a bare JSON string and an object
with none of the Task fields are kept; falsy parses (null, 0, "", false) and
an unreadable file are malformed; a non-.json file is ignored. -/
def dirSchemaless : DirEnt :=
  { name := "schemaless", isDirectory := true, readable := true,
    files :=
      [ { name := "a.json", parsed := some (JsValue.str "hello"), mtime := 1 },
        { name := "b.json", parsed := some (JsValue.obj []), mtime := 2 },
        { name := "c.json", parsed := some JsValue.null, mtime := 3 },
        { name := "d.json", parsed := some (JsValue.num 0), mtime := 4 },
        { name := "e.json", parsed := some (JsValue.str ""), mtime := 5 },
        { name := "f.json", parsed := some (JsValue.bool false), mtime := 6 },
        { name := "g.json", parsed := none, mtime := 7 },
        { name := "notes.txt", parsed := some (JsValue.str "ignored"), mtime := 8 } ] }

/-- Concrete root for the C9 witness. -/
def fsC9 : FS :=
  { tasksDirExists := true, entries := [dirSchemaless] }

/-- C9 witness: the theorem applied to `fsC9`; the published list holds
exactly the bare string and the fieldless object, verbatim. -/
theorem C9_witness :
    (∀ f ∈ dirSchemaless.files, jsEndsWith f.name ".json" = true →
      ((keepsTask f).isSome = true ↔
        ∃ v, readTaskFile f = some v ∧ truthy v = true))
    ∧ ∃ l, l ∈ (getTaskLists fsC9 []).1 ∧ l.id = "schemaless" ∧
        l.tasks.Perm (dirSchemaless.files.filterMap (fun f =>
          if jsEndsWith f.name ".json" then
            (readTaskFile f).bind (fun v => if truthy v then some v else none)
          else none)) :=
  C9_malformed_exactly_parse_or_falsy fsC9 [] dirSchemaless rfl
    (List.mem_cons_self _ _) rfl (by decide) rfl
    (by simp [dirSchemaless, keepsTask, readTaskFile, truthy, jsEndsWith, charsHasPrefix])

/-- Total fallback key used to analyse the task comparator on inputs whose
ids all parse. -/
def taskKeyD (t : JsValue) : Int :=
  (taskSortKey t).getD 0

theorem taskLe_eq_keyLe {a b : JsValue} {ka kb : Int}
    (ha : taskSortKey a = some ka) (hb : taskSortKey b = some kb) :
    taskLe a b = keyLe taskKeyD a b := by
  simp only [taskLe, taskCmp, ha, hb, keyLe, taskKeyD, Option.getD_some]
  rw [decide_eq_decide]
  omega

/-- Concrete directory for the C5 counterexample: ids are the strings "2",
"x" and "1" in scan order; "x" fails numeric parsing. -/
def dirMixedIds : DirEnt :=
  { name := "proj5", isDirectory := true, readable := true,
    files :=
      [ { name := "a.json", parsed := some (JsValue.obj [("id", JsValue.str "2")]), mtime := 1 },
        { name := "b.json", parsed := some (JsValue.obj [("id", JsValue.str "x")]), mtime := 2 },
        { name := "c.json", parsed := some (JsValue.obj [("id", JsValue.str "1")]), mtime := 3 } ] }

/-- Concrete root for the C5 counterexample. -/
def fsC5 : FS :=
  { tasksDirExists := true, entries := [dirMixedIds] }

/-- C5 counterexample: with raw ids "2", "x", "1" in scan order, every
comparison against "x" yields NaN, which the sort treats as a tie, so the
published order keeps numeric key 2 before numeric key 1 — the published
list is not sorted by numeric id ascending. -/
theorem C5_counterexample :
    ((getTaskLists fsC5 []).1.map (fun l => (l.id, l.tasks.map taskSortKey))
      = [("proj5", [some 2, none, some 1])]) ∧
    ¬ ((getTaskLists fsC5 []).1.headD
          { id := "", tasks := [], lastModified := 0 }).tasks.Pairwise
        (fun a b => taskLe a b = true) := by
  constructor
  · rfl
  · decide

/-- C5 (amended): within every published Task List all of whose task ids
parse numerically, tasks are sorted by numeric id ascending and the order is
stable: tasks with equal numeric keys (in particular duplicate raw id
strings) keep their original scan order.  When some id fails numeric
parsing the comparator is inconsistent (NaN) and the published order is the
stable-sort order of the model, not necessarily numerically sorted. -/
theorem C5_amended_sorted_stable (fs : FS) (c : Cache) (d : DirEnt)
    (hfs : fs.tasksDirExists = true)
    (hmem : d ∈ fs.entries)
    (hdir : d.isDirectory = true)
    (hname : d.name ≠ ".archive")
    (hread : d.readable = true)
    (hkeys : ∀ v ∈ (scanTasks d.files).1, (taskSortKey v).isSome = true)
    (hne : (scanTasks d.files).1 ≠ []) :
    ∃ l, l ∈ (getTaskLists fs c).1 ∧ l.id = d.name ∧
      l.tasks.Pairwise (fun a b => taskLe a b = true) ∧
      ∀ k : Int, l.tasks.filter (fun t => decide (taskSortKey t = some k)) =
        (scanTasks d.files).1.filter (fun t => decide (taskSortKey t = some k)) := by
  have hlen : 0 < (scanTasks d.files).1.length := List.length_pos.mpr hne
  have hkey : ∀ v ∈ (scanTasks d.files).1, ∃ kv, taskSortKey v = some kv := by
    intro v hv
    rcases Option.isSome_iff_exists.mp (hkeys v hv) with ⟨kv, hkv⟩
    exact ⟨kv, hkv⟩
  have hcongr : jsSortBy taskLe (scanTasks d.files).1
      = jsSortBy (keyLe taskKeyD) (scanTasks d.files).1 := by
    apply jsSortBy_congr
    intro x hx y hy
    obtain ⟨kx, hkx⟩ := hkey x hx
    obtain ⟨ky, hky⟩ := hkey y hy
    exact taskLe_eq_keyLe hkx hky
  refine ⟨{ id := d.name, tasks := jsSortBy taskLe (scanTasks d.files).1,
            lastModified := (scanTasks d.files).2 }, ?_, rfl, ?_, ?_⟩
  · rw [mem_getTaskLists_iff]
    exact ⟨hfs, d, hmem, processDir_some_iff.mpr ⟨⟨hdir, hname, hread⟩, hlen, rfl⟩⟩
  · show (jsSortBy taskLe (scanTasks d.files).1).Pairwise _
    rw [hcongr]
    have hp := jsSortBy_pairwise (keyLe taskKeyD)
      (fun a b => by
        simp only [keyLe, decide_eq_true_eq]
        omega)
      (fun a b c₀ => by
        simp only [keyLe, decide_eq_true_eq]
        omega)
      (scanTasks d.files).1
    refine hp.imp_of_mem ?_
    intro a b ha hb hab
    have ha' := (mem_jsSortBy (keyLe taskKeyD) _ a).mp ha
    have hb' := (mem_jsSortBy (keyLe taskKeyD) _ b).mp hb
    obtain ⟨ka, hka⟩ := hkey a ha'
    obtain ⟨kb, hkb⟩ := hkey b hb'
    rw [taskLe_eq_keyLe hka hkb]
    exact hab
  · intro k
    show (jsSortBy taskLe (scanTasks d.files).1).filter _ = _
    rw [hcongr]
    have hpred : ∀ t ∈ (scanTasks d.files).1,
        (decide (taskSortKey t = some k)) = (decide (taskKeyD t = k)) := by
      intro t ht
      obtain ⟨kt, hkt⟩ := hkey t ht
      rw [decide_eq_decide]
      simp [taskKeyD, hkt]
    calc (jsSortBy (keyLe taskKeyD) (scanTasks d.files).1).filter
          (fun t => decide (taskSortKey t = some k))
        = (jsSortBy (keyLe taskKeyD) (scanTasks d.files).1).filter
          (fun t => decide (taskKeyD t = k)) := by
          apply List.filter_congr
          intro t ht
          exact hpred t ((mem_jsSortBy (keyLe taskKeyD) _ t).mp ht)
      _ = (scanTasks d.files).1.filter (fun t => decide (taskKeyD t = k)) :=
          jsSortBy_filter_key taskKeyD k _
      _ = (scanTasks d.files).1.filter (fun t => decide (taskSortKey t = some k)) := by
          apply List.filter_congr
          intro t ht
          exact (hpred t ht).symm

/-- Concrete directory for the C5 witness: duplicate raw id "2" around id
"1"; all ids parse numerically. -/
def dirDupIds : DirEnt :=
  { name := "proj5w", isDirectory := true, readable := true,
    files :=
      [ { name := "a.json",
          parsed := some (JsValue.obj [("id", JsValue.str "2"), ("subject", JsValue.str "first2")]),
          mtime := 1 },
        { name := "b.json",
          parsed := some (JsValue.obj [("id", JsValue.str "1")]), mtime := 2 },
        { name := "c.json",
          parsed := some (JsValue.obj [("id", JsValue.str "2"), ("subject", JsValue.str "second2")]),
          mtime := 3 } ] }

/-- Concrete root for the C5 witness. -/
def fsC5w : FS :=
  { tasksDirExists := true, entries := [dirDupIds] }

/-- C5 witness: the amended theorem applied to `fsC5w`, whose ids all parse
and contain a duplicate raw string. -/
theorem C5_witness :
    ∃ l, l ∈ (getTaskLists fsC5w []).1 ∧ l.id = "proj5w" ∧
      l.tasks.Pairwise (fun a b => taskLe a b = true) ∧
      ∀ k : Int, l.tasks.filter (fun t => decide (taskSortKey t = some k)) =
        (scanTasks dirDupIds.files).1.filter (fun t => decide (taskSortKey t = some k)) :=
  C5_amended_sorted_stable fsC5w [] dirDupIds rfl (List.mem_cons_self _ _) rfl
    (by decide) rfl (by decide) (by exact List.cons_ne_nil _ _)

theorem getTaskLists_fst (fs : FS) (c : Cache) :
    (getTaskLists fs c).1 =
      if fs.tasksDirExists then jsSortBy listLe (fs.entries.filterMap processDir)
      else [] := by
  unfold getTaskLists
  by_cases h : fs.tasksDirExists = true
  · rw [if_pos h, if_pos h]
  · rw [if_neg h, if_neg h]

/-- C4: in every published snapshot, taskLists is sorted by lastModified
descending (most recently touched list first) and selectedListId equals the
id of the first list in that order, or the empty string when there are no
lists. -/
theorem C4_recency_order_and_selection (fs : FS) (c : Cache) (config : MonitorConfig) :
    ((writeFiles fs c config).1.taskLists.Pairwise
      (fun a b => b.lastModified ≤ a.lastModified)) ∧
    ((writeFiles fs c config).1.taskLists = [] →
      (writeFiles fs c config).1.selectedListId = "") ∧
    (∀ l rest, (writeFiles fs c config).1.taskLists = l :: rest →
      (writeFiles fs c config).1.selectedListId = l.id) := by
  have htask : (writeFiles fs c config).1.taskLists = (getTaskLists fs c).1 := rfl
  have hsel : (writeFiles fs c config).1.selectedListId
      = (match (getTaskLists fs c).1 with
         | [] => ""
         | l :: _ => l.id) := rfl
  refine ⟨?_, ?_, ?_⟩
  · rw [htask, getTaskLists_fst]
    by_cases h : fs.tasksDirExists = true
    · rw [if_pos h]
      have hp := jsSortBy_pairwise listLe
        (fun a b => by
          simp only [listLe, decide_eq_true_eq]
          omega)
        (fun a b c₀ => by
          simp only [listLe, decide_eq_true_eq]
          omega)
        (fs.entries.filterMap processDir)
      exact hp.imp (fun hab => by simpa [listLe, decide_eq_true_eq] using hab)
    · rw [if_neg h]
      exact List.Pairwise.nil
  · intro h
    rw [hsel]
    have h' : (getTaskLists fs c).1 = [] := htask ▸ h
    rw [h']
  · intro l rest h
    rw [hsel]
    have h' : (getTaskLists fs c).1 = l :: rest := htask ▸ h
    rw [h']

theorem summarize_process_rel (d : DirEnt) :
    (summarizeDir d = none ∧ processDir d = none) ∨
    (∃ s l, summarizeDir d = some s ∧ processDir d = some l ∧
      s.id = l.id ∧ s.taskCount = l.tasks.length ∧ s.lastModified = l.lastModified) := by
  by_cases hcond : d.isDirectory = true ∧ d.name ≠ ".archive" ∧ d.readable = true
  · by_cases hlen : 0 < (scanTasks d.files).1.length
    · right
      refine ⟨{ id := d.name, path := TASKS_DIR ++ "/" ++ d.name,
                taskCount := (scanTasks d.files).1.length,
                pendingCount := ((scanTasks d.files).1.filter (fun t => statusIs t "pending")).length,
                inProgressCount := ((scanTasks d.files).1.filter (fun t => statusIs t "in_progress")).length,
                completedCount := ((scanTasks d.files).1.filter (fun t => statusIs t "completed")).length,
                lastModified := (scanTasks d.files).2,
                hasPrompt := d.files.any (fun f => f.name = "prompt.md") },
              { id := d.name, tasks := jsSortBy taskLe (scanTasks d.files).1,
                lastModified := (scanTasks d.files).2 }, ?_, ?_, rfl, ?_, rfl⟩
      · unfold summarizeDir
        rw [if_pos hcond, if_pos hlen]
      · unfold processDir
        rw [if_pos hcond, if_pos hlen]
      · exact (jsSortBy_length taskLe _).symm
    · left
      constructor
      · unfold summarizeDir
        rw [if_pos hcond, if_neg hlen]
      · unfold processDir
        rw [if_pos hcond, if_neg hlen]
  · left
    constructor
    · unfold summarizeDir
      rw [if_neg hcond]
    · unfold processDir
      rw [if_neg hcond]

theorem summarize_process_forall₂ (entries : List DirEnt) :
    List.Forall₂ (fun (s : TaskListSummary) (l : ClaudeTaskList) =>
        s.id = l.id ∧ s.taskCount = l.tasks.length ∧ s.lastModified = l.lastModified)
      (entries.filterMap summarizeDir) (entries.filterMap processDir) := by
  induction entries with
  | nil => exact List.Forall₂.nil
  | cons d rest ih =>
    rw [List.filterMap_cons, List.filterMap_cons]
    rcases summarize_process_rel d with ⟨h1, h2⟩ | ⟨s, l, h1, h2, hr⟩
    · rw [h1, h2]
      exact ih
    · rw [h1, h2]
      exact List.Forall₂.cons hr ih

theorem forall₂_map_eq {α β γ : Type _} {R : α → β → Prop} {f : α → γ} {g : β → γ}
    (hfg : ∀ a b, R a b → f a = g b) :
    ∀ {l₁ : List α} {l₂ : List β}, List.Forall₂ R l₁ l₂ → l₁.map f = l₂.map g := by
  intro l₁ l₂ h
  induction h with
  | nil => rfl
  | cons ha ht ih =>
    simp only [List.map_cons, ih, hfg _ _ ha]

/-- C10: for every snapshot computed over a fixed filesystem state,
taskLists and availableLists contain exactly the same list ids in the same
order, and for each id the summary's taskCount equals the number of tasks in
the corresponding Task List. -/
theorem C10_summaries_align_with_lists (fs : FS) (c : Cache) (config : MonitorConfig) :
    ((writeFiles fs c config).1.availableLists.map TaskListSummary.id
      = (writeFiles fs c config).1.taskLists.map ClaudeTaskList.id) ∧
    List.Forall₂ (fun s l => s.id = l.id ∧ s.taskCount = l.tasks.length)
      (writeFiles fs c config).1.availableLists (writeFiles fs c config).1.taskLists := by
  have havail : (writeFiles fs c config).1.availableLists = getAllTaskListSummaries fs := rfl
  have htask : (writeFiles fs c config).1.taskLists = (getTaskLists fs c).1 := rfl
  have main : List.Forall₂ (fun (s : TaskListSummary) (l : ClaudeTaskList) =>
      s.id = l.id ∧ s.taskCount = l.tasks.length ∧ s.lastModified = l.lastModified)
      (getAllTaskListSummaries fs) ((getTaskLists fs c).1) := by
    unfold getAllTaskListSummaries
    rw [getTaskLists_fst]
    by_cases h : fs.tasksDirExists = true
    · rw [if_pos h, if_pos h]
      refine jsSortBy_forall₂ summLe listLe ?_ (summarize_process_forall₂ fs.entries)
      intro a b a' b' ha hb
      simp only [summLe, listLe]
      rw [decide_eq_decide, ha.2.2, hb.2.2]
    · rw [if_neg h, if_neg h]
      exact List.Forall₂.nil
  rw [havail, htask]
  refine ⟨forall₂_map_eq (fun s l h => h.1) main, main.imp (fun a b h => ⟨h.1, h.2.1⟩)⟩

theorem mapGet_eq_none_of_not_mem {c : Cache} {k : String}
    (h : k ∉ c.map Prod.fst) : mapGet c k = none := by
  induction c with
  | nil => rfl
  | cons p rest ih =>
    rw [List.map_cons, List.mem_cons] at h
    push_neg at h
    unfold mapGet
    rw [if_neg (fun hk => h.1 hk.symm)]
    exact ih h.2

theorem mapGet_mapDelete_self {c : Cache} {k : String}
    (h : (c.map Prod.fst).Nodup) : mapGet (mapDelete c k) k = none := by
  induction c with
  | nil => rfl
  | cons p rest ih =>
    rw [List.map_cons, List.nodup_cons] at h
    unfold mapDelete
    by_cases hk : p.1 = k
    · rw [if_pos hk]
      exact mapGet_eq_none_of_not_mem (hk ▸ h.1)
    · rw [if_neg hk]
      unfold mapGet
      rw [if_neg hk]
      exact ih h.2

theorem onUnlink_hit (s : MonState) (segs : List String) (now : Nat) (e : CacheEntry)
    (hjson : jsEndsWith (segs.getLastD "") ".json" = true)
    (harch : pathIncludesArchive segs = false)
    (hcache : mapGet s.cache (unlinkListId segs) = some e)
    (hne : e.tasks ≠ []) :
    onUnlink s segs now =
      { cache := mapDelete s.cache (unlinkListId segs),
        archives := s.archives
          ++ [{ id := unlinkListId segs, archivedAt := now, tasks := e.tasks }] } := by
  have hguard : ¬ (¬ jsEndsWith (segs.getLastD "") ".json" = true
      ∨ pathIncludesArchive segs = true) := by
    rintro (h | h)
    · exact h hjson
    · rw [harch] at h
      exact Bool.false_ne_true h
  unfold onUnlink
  rw [if_neg hguard, hcache]
  exact if_pos (List.length_pos.mpr hne)

theorem onUnlink_miss (s : MonState) (segs : List String) (now : Nat)
    (hcache : mapGet s.cache (unlinkListId segs) = none) :
    onUnlink s segs now = s := by
  unfold onUnlink
  by_cases hguard : ¬ jsEndsWith (segs.getLastD "") ".json" = true
      ∨ pathIncludesArchive segs = true
  · rw [if_pos hguard]
  · rw [if_neg hguard, hcache]

/-- C2: for every watcher-reported removal of a task file whose list has a
non-empty Reconciliation Cache entry, exactly one archive record is written
containing the list id, an archive timestamp, and the full last-known task
sequence, and the cache entry for that list id is then deleted, so archiving
happens at most once per cache entry lifetime, and a subsequent snapshot no
longer includes that list once its directory has no readable tasks. -/
theorem C2_unlink_archives_once (s : MonState) (segs : List String)
    (now now2 : Nat) (e : CacheEntry)
    (hjson : jsEndsWith (segs.getLastD "") ".json" = true)
    (harch : pathIncludesArchive segs = false)
    (hcache : mapGet s.cache (unlinkListId segs) = some e)
    (hne : e.tasks ≠ [])
    (hkeys : (s.cache.map Prod.fst).Nodup) :
    ((onUnlink s segs now).archives
      = s.archives ++ [{ id := unlinkListId segs, archivedAt := now, tasks := e.tasks }]) ∧
    mapGet (onUnlink s segs now).cache (unlinkListId segs) = none ∧
    (onUnlink (onUnlink s segs now) segs now2 = onUnlink s segs now) ∧
    (∀ fs c, (∀ d ∈ fs.entries, d.name = unlinkListId segs → processDir d = none) →
      unlinkListId segs ∉ ((getTaskLists fs c).1.map ClaudeTaskList.id)) := by
  have hstep := onUnlink_hit s segs now e hjson harch hcache hne
  have hdel : mapGet (onUnlink s segs now).cache (unlinkListId segs) = none := by
    rw [hstep]
    exact mapGet_mapDelete_self hkeys
  refine ⟨by rw [hstep], hdel, onUnlink_miss _ segs now2 hdel, ?_⟩
  intro fs c hnone hmem
  rw [List.mem_map] at hmem
  obtain ⟨l, hl, hid⟩ := hmem
  rw [mem_getTaskLists_iff] at hl
  obtain ⟨-, d, hd, hpd⟩ := hl
  have : processDir d = none := hnone d hd ((processDir_id hpd) ▸ hid)
  rw [this] at hpd
  exact Option.noConfusion hpd

/-- Concrete cache entry for the C2 witness. -/
def entryC2 : CacheEntry :=
  { tasks := [JsValue.obj [("id", JsValue.str "1"), ("subject", JsValue.str "t")]],
    lastModified := 10 }

/-- Concrete watcher state for the C2 witness. -/
def stC2 : MonState :=
  { cache := [("projA", entryC2)], archives := [] }

/-- Concrete unlink path for the C2 witness (segments of
`~/.claude/tasks/projA/1.json`). -/
def segsC2 : List String := ["~", ".claude", "tasks", "projA", "1.json"]

/-- C2 witness: removing projA's task file archives its cached tasks exactly
once, deletes the cache entry, a second removal archives nothing more, and a
root without readable projA tasks publishes no projA list. -/
theorem C2_witness :
    ((onUnlink stC2 segsC2 5000).archives
      = stC2.archives ++ [{ id := "projA", archivedAt := 5000, tasks := entryC2.tasks }]) ∧
    mapGet (onUnlink stC2 segsC2 5000).cache "projA" = none ∧
    (onUnlink (onUnlink stC2 segsC2 5000) segsC2 6000 = onUnlink stC2 segsC2 5000) ∧
    (∀ fs c, (∀ d ∈ fs.entries, d.name = "projA" → processDir d = none) →
      "projA" ∉ ((getTaskLists fs c).1.map ClaudeTaskList.id)) :=
  C2_unlink_archives_once stC2 segsC2 5000 6000 entryC2
    (by decide) (by decide) rfl (by exact List.cons_ne_nil _ _) (by decide)

theorem scheduleWriteFiles_pending {d t : Nat} {p : Nat} (h : ¬ d ≤ t) :
    scheduleWriteFiles { deadline := some d, passes := p } t
      = { deadline := some (t + 300), passes := p } := by
  simp only [scheduleWriteFiles, advanceTo]
  rw [if_neg h]

theorem scheduleWriteFiles_fired {d t : Nat} {p : Nat} (h : d ≤ t) :
    scheduleWriteFiles { deadline := some d, passes := p } t
      = { deadline := some (t + 300), passes := p + 1 } := by
  simp only [scheduleWriteFiles, advanceTo]
  rw [if_pos h]

theorem foldl_sched_burst (p : Nat) :
    ∀ (ts : List Nat) (t0 : Nat),
      List.Chain (fun a b => a ≤ b ∧ b < a + 300) t0 ts →
      ts.foldl scheduleWriteFiles { deadline := some (t0 + 300), passes := p }
        = { deadline := some (ts.getLastD t0 + 300), passes := p } := by
  intro ts
  induction ts with
  | nil => intro t0 _; rfl
  | cons t1 rest ih =>
    intro t0 hchain
    rcases List.chain_cons.mp hchain with ⟨⟨h1, h2⟩, hrest⟩
    rw [List.foldl_cons, scheduleWriteFiles_pending (by omega), ih t1 hrest,
      List.getLastD_cons]

/-- C6: for every burst of M >= 1 regeneration requests each arriving within
the fixed 300 ms quiet window of the previous one, exactly one
aggregation+publish pass fires once the window elapses with no new request;
a further single request after the window has elapsed triggers exactly one
more pass. -/
theorem C6_debounce_collapses_bursts (t0 : Nat) (ts : List Nat) (u : Nat)
    (hchain : List.Chain (fun a b => a ≤ b ∧ b < a + 300) t0 ts)
    (hu : ts.getLastD t0 + 300 ≤ u) :
    totalPasses (t0 :: ts) = 1 ∧ totalPasses ((t0 :: ts) ++ [u]) = 2 := by
  have hfirst : scheduleWriteFiles { deadline := none, passes := 0 } t0
      = { deadline := some (t0 + 300), passes := 0 } := rfl
  have hburst : runRequests (t0 :: ts)
      = { deadline := some (ts.getLastD t0 + 300), passes := 0 } := by
    unfold runRequests
    rw [List.foldl_cons, hfirst, foldl_sched_burst 0 ts t0 hchain]
  constructor
  · show flushSched (runRequests (t0 :: ts)) = 1
    rw [hburst]
    rfl
  · show flushSched (runRequests ((t0 :: ts) ++ [u])) = 2
    unfold runRequests
    rw [List.foldl_append]
    have : (t0 :: ts).foldl scheduleWriteFiles { deadline := none, passes := 0 }
        = { deadline := some (ts.getLastD t0 + 300), passes := 0 } := hburst
    rw [this, List.foldl_cons, List.foldl_nil, scheduleWriteFiles_fired hu]
    rfl

/-- C6 witness: three requests at 1000, 1100, 1200 ms (each within 300 ms of
the previous) yield exactly one pass; a fourth request at 1600 ms, after the
window elapsed at 1500 ms, yields exactly one more. -/
theorem C6_witness :
    totalPasses [1000, 1100, 1200] = 1 ∧ totalPasses [1000, 1100, 1200, 1600] = 2 :=
  C6_debounce_collapses_bursts 1000 [1100, 1200] 1600
    (List.Chain.cons (by omega) (List.Chain.cons (by omega) List.Chain.nil)) (by decide)


theorem validateProjectDir_absent {input : List (String × JsValue)} (c : MonitorConfig)
    (h : objGet input "projectDir" = none) :
    validateProjectDir input c = Except.ok c := by
  unfold validateProjectDir
  rw [h]

theorem validateProjectDir_preserves {input : List (String × JsValue)}
    {c c' : MonitorConfig} (h : validateProjectDir input c = Except.ok c') :
    c'.pollInterval = c.pollInterval ∧ c'.agentNames = c.agentNames := by
  unfold validateProjectDir at h
  split at h
  · cases h
    exact ⟨rfl, rfl⟩
  · split at h
    · split at h
      · cases h
      · cases h
        exact ⟨rfl, rfl⟩
    · cases h

theorem validatePollInterval_absent {input : List (String × JsValue)} (c : MonitorConfig)
    (h : objGet input "pollInterval" = none) :
    validatePollInterval input c = Except.ok c := by
  unfold validatePollInterval
  rw [h]

theorem validatePollInterval_preserves {input : List (String × JsValue)}
    {c c' : MonitorConfig} (h : validatePollInterval input c = Except.ok c') :
    c'.projectDir = c.projectDir ∧ c'.agentNames = c.agentNames := by
  unfold validatePollInterval at h
  split at h
  · cases h
    exact ⟨rfl, rfl⟩
  · split at h
    · cases h
    · split at h
      · cases h
      · cases h
        exact ⟨rfl, rfl⟩

theorem validatePollInterval_range {input : List (String × JsValue)}
    {c c' : MonitorConfig} (h : validatePollInterval input c = Except.ok c') :
    c'.pollInterval = c.pollInterval ∨
      (500 ≤ c'.pollInterval ∧ c'.pollInterval ≤ 60000) := by
  unfold validatePollInterval at h
  split at h
  · cases h
    exact Or.inl rfl
  · split at h
    · cases h
    · split at h
      · cases h
      · cases h
        rename_i hq
        push_neg at hq
        exact Or.inr ⟨hq.1, hq.2⟩

theorem validatePollInterval_bad {input : List (String × JsValue)} {v : JsValue}
    (c : MonitorConfig) (hv : objGet input "pollInterval" = some v)
    (hbad : match jsToNumber v with
            | none => True
            | some q => q < 500 ∨ 60000 < q) :
    validatePollInterval input c
      = Except.error "pollInterval must be a number between 500 and 60000" := by
  unfold validatePollInterval
  rw [hv]
  show (match jsToNumber v with
    | none =>
      (Except.error "pollInterval must be a number between 500 and 60000" :
        Except String MonitorConfig)
    | some q =>
      if q < 500 ∨ 60000 < q then
        Except.error "pollInterval must be a number between 500 and 60000"
      else Except.ok { c with pollInterval := q }) = _
  cases hn : jsToNumber v with
  | none => rfl
  | some q =>
    rw [hn] at hbad
    show (if q < 500 ∨ 60000 < q then
        (Except.error "pollInterval must be a number between 500 and 60000" :
          Except String MonitorConfig)
      else Except.ok { c with pollInterval := q }) = _
    rw [if_pos hbad]

theorem validateAgentNames_absent {input : List (String × JsValue)} (c : MonitorConfig)
    (h : objGet input "agentNames" = none) :
    validateAgentNames input c = Except.ok c := by
  unfold validateAgentNames
  rw [h]

theorem validateAgentNames_preserves {input : List (String × JsValue)}
    {c c' : MonitorConfig} (h : validateAgentNames input c = Except.ok c') :
    c'.projectDir = c.projectDir ∧ c'.pollInterval = c.pollInterval := by
  unfold validateAgentNames at h
  split at h
  · cases h
    exact ⟨rfl, rfl⟩
  · split at h
    · cases h
    · split at h
      · cases h
      · cases h
        exact ⟨rfl, rfl⟩
  · cases h

theorem validateConfig_ok_decompose {current : MonitorConfig}
    {input : List (String × JsValue)} {c : MonitorConfig}
    (h : validateConfig current input = Except.ok c) :
    ∃ c1 c2, validateProjectDir input current = Except.ok c1 ∧
      validatePollInterval input c1 = Except.ok c2 ∧
      validateAgentNames input c2 = Except.ok c := by
  unfold validateConfig at h
  cases h1 : validateProjectDir input current with
  | error e =>
    rw [h1] at h
    simp only [Except.bind] at h
    cases h
  | ok c1 =>
    rw [h1] at h
    simp only [Except.bind] at h
    cases h2 : validatePollInterval input c1 with
    | error e =>
      rw [h2] at h
      simp only [Except.bind] at h
      cases h
    | ok c2 =>
      rw [h2] at h
      simp only [Except.bind] at h
      exact ⟨c1, c2, rfl, h2, h⟩

/-- C3: for every config API write whose partial update contains any invalid
field (for example pollInterval: 100, below 500), the entire update is
rejected with a field-identifying error and the in-memory configuration
record and persisted config file are left unchanged — no field of a
partially-valid update is applied; on a valid update only the fields present
in the update change, the result is persisted synchronously, and a
regeneration is triggered. -/
theorem C3_config_write_atomic (st : ServerState) (fields : List (String × JsValue)) :
    (∀ e, validateConfig st.currentConfig fields = Except.error e →
      handleConfigPost st (some (JsValue.obj fields))
        = (st, { status := 400, result := Except.error e })) ∧
    (∀ c, validateConfig st.currentConfig fields = Except.ok c →
      handleConfigPost st (some (JsValue.obj fields))
        = ({ currentConfig := c, configFile := some (saveConfig c),
             regenRequests := st.regenRequests + 1 },
           { status := 200, result := Except.ok c }) ∧
      (objGet fields "projectDir" = none → c.projectDir = st.currentConfig.projectDir) ∧
      (objGet fields "pollInterval" = none → c.pollInterval = st.currentConfig.pollInterval) ∧
      (objGet fields "agentNames" = none → c.agentNames = st.currentConfig.agentNames)) := by
  have hpost : handleConfigPost st (some (JsValue.obj fields))
      = applyConfigUpdate st fields := rfl
  constructor
  · intro e he
    rw [hpost]
    unfold applyConfigUpdate
    rw [he]
  · intro c hc
    obtain ⟨c1, c2, h1, h2, h3⟩ := validateConfig_ok_decompose hc
    refine ⟨?_, ?_, ?_, ?_⟩
    · rw [hpost]
      unfold applyConfigUpdate
      rw [hc]
    · intro hab
      have e1 : c1 = st.currentConfig := by
        have habs := validateProjectDir_absent st.currentConfig hab
        rw [habs] at h1
        exact (Except.ok.inj h1).symm
      rw [(validateAgentNames_preserves h3).1, (validatePollInterval_preserves h2).1, e1]
    · intro hab
      have e2 : c2 = c1 := by
        have habs := validatePollInterval_absent c1 hab
        rw [habs] at h2
        exact (Except.ok.inj h2).symm
      rw [(validateAgentNames_preserves h3).2, e2, (validateProjectDir_preserves h1).1]
    · intro hab
      have e3 : c = c2 := by
        have habs := validateAgentNames_absent c2 hab
        rw [habs] at h3
        exact (Except.ok.inj h3).symm
      rw [e3, (validatePollInterval_preserves h2).2, (validateProjectDir_preserves h1).2]

/-- Concrete server state for the C3 witness. -/
def stC3 : ServerState :=
  { currentConfig := DEFAULT_CONFIG "/work",
    configFile := some (saveConfig (DEFAULT_CONFIG "/work")),
    regenRequests := 0 }

/-- A partially-valid update for the C3 witness: pollInterval 100 is below
500 while agentNames is valid. -/
def badFieldsC3 : List (String × JsValue) :=
  [("pollInterval", JsValue.num 100),
   ("agentNames", JsValue.arr [JsValue.str "x", JsValue.str "y"])]

/-- A valid partial update for the C3 witness: only agentNames present. -/
def okFieldsC3 : List (String × JsValue) :=
  [("agentNames", JsValue.arr [JsValue.str "x", JsValue.str "y"])]

/-- The configuration produced by the valid C3 witness update. -/
def cfgC3ok : MonitorConfig :=
  { projectDir := "/work", pollInterval := 2000, agentNames := ["x", "y"] }

/-- C3 witness: the update containing pollInterval 100 is rejected whole
(even though its agentNames part is valid) leaving all state unchanged; the
valid agentNames-only update is applied, persisted, triggers one
regeneration, and leaves the absent fields unchanged. -/
def respBadC3 : HttpResponse :=
  { status := 400,
    result := Except.error "pollInterval must be a number between 500 and 60000" }

def stC3after : ServerState :=
  { currentConfig := cfgC3ok, configFile := some (saveConfig cfgC3ok), regenRequests := 1 }

theorem C3_witness :
    (handleConfigPost stC3 (some (JsValue.obj badFieldsC3)) = (stC3, respBadC3)) ∧
    ((handleConfigPost stC3 (some (JsValue.obj okFieldsC3))
        = (stC3after, { status := 200, result := Except.ok cfgC3ok })) ∧
      (objGet okFieldsC3 "projectDir" = none → cfgC3ok.projectDir = stC3.currentConfig.projectDir) ∧
      (objGet okFieldsC3 "pollInterval" = none → cfgC3ok.pollInterval = stC3.currentConfig.pollInterval) ∧
      (objGet okFieldsC3 "agentNames" = none → cfgC3ok.agentNames = stC3.currentConfig.agentNames)) :=
  ⟨(C3_config_write_atomic stC3 badFieldsC3).1
      "pollInterval must be a number between 500 and 60000" (by rfl),
   (C3_config_write_atomic stC3 okFieldsC3).2 cfgC3ok (by rfl)⟩

/-- C7: for every configuration value that passes validation, saving it to
the persisted config file and then reloading from scratch (as on process
restart) yields a configuration record field-equal to the one persisted. -/
theorem C7_config_roundtrip (cwd : String) (c : MonitorConfig)
    (hproj : 0 < c.projectDir.length)
    (hpoll : 500 ≤ c.pollInterval ∧ c.pollInterval ≤ 60000)
    (hnames : c.agentNames ≠ [] ∧ ∀ n ∈ c.agentNames, 0 < n.length) :
    loadConfig cwd (some (saveConfig c)) = c := by
  have h1 : jsGetField (saveConfig c) "projectDir" = some (JsValue.str c.projectDir) := rfl
  have h2 : jsGetField (saveConfig c) "pollInterval" = some (JsValue.num c.pollInterval) := rfl
  have h3 : jsGetField (saveConfig c) "agentNames"
      = some (JsValue.arr (c.agentNames.map JsValue.str)) := rfl
  have e1 : (loadConfig cwd (some (saveConfig c))).projectDir = c.projectDir := by
    show (match jsGetField (saveConfig c) "projectDir" with
      | some (JsValue.str s) => if s.length > 0 then s else (DEFAULT_CONFIG cwd).projectDir
      | _ => (DEFAULT_CONFIG cwd).projectDir) = c.projectDir
    rw [h1]
    show (if c.projectDir.length > 0 then c.projectDir
      else (DEFAULT_CONFIG cwd).projectDir) = c.projectDir
    rw [if_pos hproj]
  have e2 : (loadConfig cwd (some (saveConfig c))).pollInterval = c.pollInterval := by
    show (match jsGetField (saveConfig c) "pollInterval" with
      | some (JsValue.num q) =>
        if 500 ≤ q ∧ q ≤ 60000 then q else (DEFAULT_CONFIG cwd).pollInterval
      | _ => (DEFAULT_CONFIG cwd).pollInterval) = c.pollInterval
    rw [h2]
    show (if 500 ≤ c.pollInterval ∧ c.pollInterval ≤ 60000 then c.pollInterval
      else (DEFAULT_CONFIG cwd).pollInterval) = c.pollInterval
    rw [if_pos hpoll]
  have e3 : (loadConfig cwd (some (saveConfig c))).agentNames = c.agentNames := by
    show (match jsGetField (saveConfig c) "agentNames" with
      | some (JsValue.arr xs) =>
        if xs.length > 0 ∧ xs.all (fun x =>
            match x with
            | JsValue.str s => s.length > 0
            | _ => false) then
          xs.map (fun x =>
            match x with
            | JsValue.str s => s
            | _ => "")
        else (DEFAULT_CONFIG cwd).agentNames
      | _ => (DEFAULT_CONFIG cwd).agentNames) = c.agentNames
    rw [h3]
    have hcond : (c.agentNames.map JsValue.str).length > 0
        ∧ (c.agentNames.map JsValue.str).all (fun x =>
            match x with
            | JsValue.str s => s.length > 0
            | _ => false) = true := by
      constructor
      · rw [List.length_map]
        exact List.length_pos.mpr hnames.1
      · apply List.all_eq_true.mpr
        intro x hx
        obtain ⟨n, hn, rfl⟩ := List.mem_map.mp hx
        exact decide_eq_true (hnames.2 n hn)
    show (if (c.agentNames.map JsValue.str).length > 0
        ∧ (c.agentNames.map JsValue.str).all (fun x =>
            match x with
            | JsValue.str s => s.length > 0
            | _ => false) = true then
        (c.agentNames.map JsValue.str).map (fun x =>
          match x with
          | JsValue.str s => s
          | _ => "")
      else (DEFAULT_CONFIG cwd).agentNames) = c.agentNames
    rw [if_pos hcond, List.map_map]
    show c.agentNames.map (fun s => s) = c.agentNames
    exact List.map_id' c.agentNames
  calc loadConfig cwd (some (saveConfig c))
      = { projectDir := (loadConfig cwd (some (saveConfig c))).projectDir,
          pollInterval := (loadConfig cwd (some (saveConfig c))).pollInterval,
          agentNames := (loadConfig cwd (some (saveConfig c))).agentNames } := rfl
    _ = { projectDir := c.projectDir, pollInterval := c.pollInterval,
          agentNames := c.agentNames } := by rw [e1, e2, e3]
    _ = c := rfl

/-- Concrete configuration for the C7 witness. -/
def cfgC7 : MonitorConfig :=
  { projectDir := "/repo", pollInterval := 750, agentNames := ["x", "y"] }

/-- C7 witness: the round trip applied to a concrete valid configuration. -/
theorem C7_witness : loadConfig "/cwd" (some (saveConfig cfgC7)) = cfgC7 :=
  C7_config_roundtrip "/cwd" cfgC7 (by decide) (by decide) (by decide)

/-- The configuration produced by the C8 counterexample update. -/
def cfgC8 : MonitorConfig :=
  { projectDir := "/w", pollInterval := mkRat 1101 2,
    agentNames := (DEFAULT_CONFIG "/w").agentNames }

/-- C8 counterexample: pollInterval 550.5 is not an integer, yet the API
write accepts it, and a persisted 550.5 survives Load instead of being
replaced by the default — so the live pollInterval need not be an integer. -/
theorem C8_counterexample :
    (validateConfig (DEFAULT_CONFIG "/w") [("pollInterval", JsValue.num (mkRat 1101 2))]
      = Except.ok cfgC8) ∧
    ((loadConfig "/w"
        (some (JsValue.obj [("pollInterval", JsValue.num (mkRat 1101 2))]))).pollInterval
      = mkRat 1101 2) ∧
    (mkRat 1101 2).den ≠ 1 := by
  refine ⟨rfl, rfl, by decide⟩

theorem validateConfig_step1_error {cur : MonitorConfig}
    {input : List (String × JsValue)} {e : String}
    (h : validateProjectDir input cur = Except.error e) :
    validateConfig cur input = Except.error e := by
  unfold validateConfig
  rw [h]
  rfl

theorem validateConfig_step2_error {cur c1 : MonitorConfig}
    {input : List (String × JsValue)} {e : String}
    (h1 : validateProjectDir input cur = Except.ok c1)
    (h2 : validatePollInterval input c1 = Except.error e) :
    validateConfig cur input = Except.error e := by
  unfold validateConfig
  rw [h1]
  show (validatePollInterval input c1).bind _ = Except.error e
  rw [h2]
  rfl

theorem loadConfig_pollInterval_eq (cwd : String) (parsed : JsValue) :
    (loadConfig cwd (some parsed)).pollInterval =
      (match jsGetField parsed "pollInterval" with
       | some (JsValue.num q) =>
         if 500 ≤ q ∧ q ≤ 60000 then q else (DEFAULT_CONFIG cwd).pollInterval
       | _ => (DEFAULT_CONFIG cwd).pollInterval) := rfl

theorem loadConfig_pollInterval_cases (cwd : String) (file : Option JsValue) :
    (loadConfig cwd file).pollInterval = 2000 ∨
    ∃ q, (loadConfig cwd file).pollInterval = q ∧ 500 ≤ q ∧ q ≤ 60000 := by
  cases file with
  | none => exact Or.inl rfl
  | some parsed =>
    rw [loadConfig_pollInterval_eq]
    cases hg : jsGetField parsed "pollInterval" with
    | none => exact Or.inl rfl
    | some v =>
      cases v with
      | num q =>
        by_cases hq : 500 ≤ q ∧ q ≤ 60000
        · exact Or.inr ⟨q, if_pos hq, hq⟩
        · exact Or.inl (if_neg hq)
      | null => exact Or.inl rfl
      | bool b => exact Or.inl rfl
      | str s => exact Or.inl rfl
      | arr xs => exact Or.inl rfl
      | obj fs => exact Or.inl rfl

/-- C8 (amended): every pollInterval held in the live configuration after a
Load or an accepted API write is a number between 500 and 60000 inclusive —
integrality is not enforced; a candidate whose numeric coercion is NaN or
out of range is rejected by the API write, and a persisted pollInterval that
is not a number in that range is replaced by the default on Load. -/
theorem C8_amended_pollInterval_range :
    (∀ cwd file, 500 ≤ (loadConfig cwd file).pollInterval
      ∧ (loadConfig cwd file).pollInterval ≤ 60000) ∧
    (∀ cur input c, validateConfig cur input = Except.ok c →
      500 ≤ cur.pollInterval ∧ cur.pollInterval ≤ 60000 →
      500 ≤ c.pollInterval ∧ c.pollInterval ≤ 60000) ∧
    (∀ cur input v, objGet input "pollInterval" = some v →
      (match jsToNumber v with
       | none => True
       | some q => q < 500 ∨ 60000 < q) →
      ∃ e, validateConfig cur input = Except.error e) ∧
    (∀ cwd parsed v, jsGetField parsed "pollInterval" = some v →
      (match v with
       | JsValue.num q => q < 500 ∨ 60000 < q
       | _ => True) →
      (loadConfig cwd (some parsed)).pollInterval = 2000) := by
  refine ⟨?_, ?_, ?_, ?_⟩
  · intro cwd file
    rcases loadConfig_pollInterval_cases cwd file with h | ⟨q, hq, h1, h2⟩
    · rw [h]
      exact ⟨by norm_num, by norm_num⟩
    · rw [hq]
      exact ⟨h1, h2⟩
  · intro cur input c hok hcur
    obtain ⟨c1, c2, h1, h2, h3⟩ := validateConfig_ok_decompose hok
    have hc2 : c.pollInterval = c2.pollInterval := (validateAgentNames_preserves h3).2
    have hc1 : c1.pollInterval = cur.pollInterval := (validateProjectDir_preserves h1).1
    rcases validatePollInterval_range h2 with heq | hrange
    · rw [hc2, heq, hc1]
      exact hcur
    · rw [hc2]
      exact hrange
  · intro cur input v hv hbad
    cases h1 : validateProjectDir input cur with
    | error e => exact ⟨e, validateConfig_step1_error h1⟩
    | ok c1 =>
      exact ⟨"pollInterval must be a number between 500 and 60000",
        validateConfig_step2_error h1 (validatePollInterval_bad c1 hv hbad)⟩
  · intro cwd parsed v hv hbad
    rw [loadConfig_pollInterval_eq, hv]
    cases v with
    | num q =>
      have hbad' : q < 500 ∨ 60000 < q := hbad
      exact if_neg (by
        rintro ⟨ha, hb⟩
        rcases hbad' with h | h
        · exact absurd ha (not_le.mpr h)
        · exact absurd hb (not_le.mpr h))
    | null => rfl
    | bool b => rfl
    | str s => rfl
    | arr xs => rfl
    | obj fs => rfl

/-- An accepted in-range update result for the C8 witness. -/
def cfgC8w : MonitorConfig :=
  { projectDir := "/w", pollInterval := 750,
    agentNames := (DEFAULT_CONFIG "/w").agentNames }

/-- C8 witness: the amended theorem exercised at concrete inputs — a missing
file loads the in-range default, an accepted 750 write stays in range, a 100
write is rejected, and a persisted 99 is replaced by the default 2000. -/
theorem C8_witness :
    (500 ≤ (loadConfig "/w" none).pollInterval
      ∧ (loadConfig "/w" none).pollInterval ≤ 60000) ∧
    (500 ≤ cfgC8w.pollInterval ∧ cfgC8w.pollInterval ≤ 60000) ∧
    (∃ e, validateConfig (DEFAULT_CONFIG "/w") [("pollInterval", JsValue.num 100)]
      = Except.error e) ∧
    ((loadConfig "/w" (some (JsValue.obj [("pollInterval", JsValue.num 99)]))).pollInterval
      = 2000) :=
  ⟨C8_amended_pollInterval_range.1 "/w" none,
   C8_amended_pollInterval_range.2.1 (DEFAULT_CONFIG "/w")
      [("pollInterval", JsValue.num 750)] cfgC8w rfl
      ⟨by norm_num [DEFAULT_CONFIG], by norm_num [DEFAULT_CONFIG]⟩,
   C8_amended_pollInterval_range.2.2.1 (DEFAULT_CONFIG "/w")
      [("pollInterval", JsValue.num 100)] (JsValue.num 100) rfl
      (by exact Or.inl (by norm_num)),
   C8_amended_pollInterval_range.2.2.2 "/w"
      (JsValue.obj [("pollInterval", JsValue.num 99)]) (JsValue.num 99) rfl
      (by exact Or.inl (by norm_num))⟩

/-- Concrete directory proj-a for the C4 witness (older, mtime 100). -/
def dirProjA : DirEnt :=
  { name := "proj-a", isDirectory := true, readable := true,
    files :=
      [ { name := "1.json",
          parsed := some (JsValue.obj [("id", JsValue.str "1"), ("status", JsValue.str "pending")]),
          mtime := 100 },
        { name := "2.json",
          parsed := some (JsValue.obj [("id", JsValue.str "2"), ("status", JsValue.str "completed")]),
          mtime := 90 } ] }

/-- Concrete directory proj-b for the C4 witness (newer, mtime 200). -/
def dirProjB : DirEnt :=
  { name := "proj-b", isDirectory := true, readable := true,
    files :=
      [ { name := "1.json",
          parsed := some (JsValue.obj [("id", JsValue.str "1"), ("status", JsValue.str "in_progress")]),
          mtime := 200 } ] }

/-- Concrete root for the C4 witness. -/
def fsC4 : FS :=
  { tasksDirExists := true, entries := [dirProjA, dirProjB] }

/-- C4 witness: with proj-a at mtime 100 and proj-b at mtime 200, the
snapshot is recency-sorted, ordered [proj-b, proj-a], and selectedListId is
proj-b. -/
theorem C4_witness :
    ((writeFiles fsC4 [] (DEFAULT_CONFIG "/w")).1.taskLists.Pairwise
      (fun a b => b.lastModified ≤ a.lastModified)) ∧
    ((writeFiles fsC4 [] (DEFAULT_CONFIG "/w")).1.taskLists.map ClaudeTaskList.id
      = ["proj-b", "proj-a"]) ∧
    ((writeFiles fsC4 [] (DEFAULT_CONFIG "/w")).1.selectedListId = "proj-b") := by
  refine ⟨(C4_recency_order_and_selection fsC4 [] (DEFAULT_CONFIG "/w")).1, by decide, ?_⟩
  have h := (C4_recency_order_and_selection fsC4 [] (DEFAULT_CONFIG "/w")).2.2
    { id := "proj-b",
      tasks := [JsValue.obj [("id", JsValue.str "1"), ("status", JsValue.str "in_progress")]],
      lastModified := 200 }
    [{ id := "proj-a",
       tasks := [JsValue.obj [("id", JsValue.str "1"), ("status", JsValue.str "pending")],
                 JsValue.obj [("id", JsValue.str "2"), ("status", JsValue.str "completed")]],
       lastModified := 100 }] rfl
  exact h
